import Mathlib

/-!
Verification model of the expression core of mathy-notes (`src/expr.rs`):
lexer, numeric-literal reader, precedence-climbing parser, and evaluator.

Modelling conventions:
* Rust `f64` values are modelled by `FVal`: an exact rational (`fin`),
  positive/negative infinity, or NaN.  Finite IEEE-754 arithmetic is
  modelled as exact rational arithmetic; the two agree whenever the
  operations involved are exact in `f64` (in particular on all the small
  integer computations appearing in the theorems below).  Negative zero is
  not distinguished from zero.
* The transcendental `f64` functions (`sin`, `ln`, `sqrt`, ...) have no
  exact rational embedding, so the whole development is parametrised by a
  `FloatFns` record supplying them; theorems about concrete inputs hold
  for every choice of `FloatFns`, showing they do not depend on it.
* Rust character classes (`is_alphabetic`, `is_numeric`, `is_whitespace`)
  are modelled by Lean's ASCII predicates; every input considered is ASCII.
* The recursive lexer and parser consume their input but Lean cannot see
  that directly, so both take a fuel argument bounding the recursion
  depth; the top-level `parse` supplies fuel linear in the input size,
  which over-approximates the actual call depth.  Running out of fuel is
  modelled as `Error.Unrecognized` (it never happens with the supplied
  fuel on the inputs considered).
-/

namespace MathyNotes

/-- Model of `enum Error` (src/expr.rs lines 3-7). -/
inductive Error
  | Unrecognized
  | Invalid
deriving DecidableEq, Repr

/-- Model of `enum TokenType` (src/expr.rs lines 21-26). -/
inductive TokenType
  | Num
  | Id
  | Sym
deriving DecidableEq, Repr

/-- Model of `enum Lexeme` with `Token` and `Group` inlined
(src/expr.rs lines 28-43): a token carries its text and kind, a group
carries its fully-lexed inner lexeme list. -/
inductive Lexeme
  | token (text : List Char) (ty : TokenType)
  | group (inner : List Lexeme)

/-- Model of an `f64` value: an exact rational, an infinity, or NaN. -/
inductive FVal
  | fin (q : ℚ)
  | inf
  | neginf
  | nan
deriving DecidableEq, Repr

/-- IEEE-754 negation on the model. -/
def fneg : FVal → FVal
  | .fin a => .fin (-a)
  | .inf => .neginf
  | .neginf => .inf
  | .nan => .nan

/-- IEEE-754 addition on the model (exact in the finite case). -/
def fadd : FVal → FVal → FVal
  | .fin a, .fin b => .fin (a + b)
  | .fin _, .inf => .inf
  | .fin _, .neginf => .neginf
  | .inf, .fin _ => .inf
  | .neginf, .fin _ => .neginf
  | .inf, .inf => .inf
  | .neginf, .neginf => .neginf
  | .inf, .neginf => .nan
  | .neginf, .inf => .nan
  | .nan, _ => .nan
  | _, .nan => .nan

/-- IEEE-754 subtraction: adding the negation (exact in IEEE-754). -/
def fsub (a b : FVal) : FVal := fadd a (fneg b)

/-- IEEE-754 multiplication on the model (exact in the finite case). -/
def fmul : FVal → FVal → FVal
  | .fin a, .fin b => .fin (a * b)
  | .fin a, .inf => if 0 < a then .inf else if a < 0 then .neginf else .nan
  | .fin a, .neginf => if 0 < a then .neginf else if a < 0 then .inf else .nan
  | .inf, .fin b => if 0 < b then .inf else if b < 0 then .neginf else .nan
  | .neginf, .fin b => if 0 < b then .neginf else if b < 0 then .inf else .nan
  | .inf, .inf => .inf
  | .inf, .neginf => .neginf
  | .neginf, .inf => .neginf
  | .neginf, .neginf => .inf
  | .nan, _ => .nan
  | _, .nan => .nan

/-- IEEE-754 division on the model: a nonzero finite value divided by zero
gives a signed infinity, `0/0` gives NaN, finite division is exact. -/
def fdiv : FVal → FVal → FVal
  | .fin a, .fin b =>
    if b = 0 then (if 0 < a then .inf else if a < 0 then .neginf else .nan)
    else .fin (a / b)
  | .fin _, .inf => .fin 0
  | .fin _, .neginf => .fin 0
  | .inf, .fin b => if b < 0 then .neginf else .inf
  | .neginf, .fin b => if b < 0 then .inf else .neginf
  | _, _ => .nan

/-- IEEE-754 absolute value on the model. -/
def fabs : FVal → FVal
  | .fin a => .fin |a|
  | .inf => .inf
  | .neginf => .inf
  | .nan => .nan

/-- Model of `f64::powf`.  Integer exponents are exact and modelled
concretely; a positive finite base raised to a non-integer exponent is in
general irrational, so that one case is delegated to the parameter
`frac` (supplied by `FloatFns`).  The IEEE special cases `pow(x,0) = 1`
and `pow(1,y) = 1` (even for NaN arguments), NaN propagation elsewhere,
negative base with non-integer exponent giving NaN, and the
infinite-argument rules are reproduced; signed zero is not modelled. -/
def fpow (frac : ℚ → ℚ → FVal) : FVal → FVal → FVal
  | .fin b, .fin e =>
    if e = 0 then .fin 1
    else if b = 1 then .fin 1
    else if e.den = 1 then
      (if b = 0 then (if 0 < e.num then .fin 0 else .inf) else .fin (b ^ e.num))
    else if b < 0 then .nan
    else if b = 0 then (if 0 < e then .fin 0 else .inf)
    else frac b e
  | .nan, .fin e => if e = 0 then .fin 1 else .nan
  | .fin b, .nan => if b = 1 then .fin 1 else .nan
  | .nan, .nan => .nan
  | .nan, .inf => .nan
  | .nan, .neginf => .nan
  | .inf, .nan => .nan
  | .neginf, .nan => .nan
  | .fin b, .inf =>
    if b = 1 ∨ b = -1 then .fin 1 else if -1 < b ∧ b < 1 then .fin 0 else .inf
  | .fin b, .neginf =>
    if b = 1 ∨ b = -1 then .fin 1 else if -1 < b ∧ b < 1 then .inf else .fin 0
  | .inf, .fin e => if e = 0 then .fin 1 else if 0 < e then .inf else .fin 0
  | .neginf, .fin e =>
    if e = 0 then .fin 1
    else if 0 < e then (if e.den = 1 ∧ e.num % 2 = 1 then .neginf else .inf)
    else .fin 0
  | .inf, .inf => .inf
  | .inf, .neginf => .fin 0
  | .neginf, .inf => .inf
  | .neginf, .neginf => .fin 0

/-- Model of `fn lex` (src/expr.rs lines 45-119).  The Rust function
mutates a peekable character iterator and pushes lexemes into a vector;
the model consumes a `List Char`, returns the lexemes together with the
unconsumed remainder, and prepends instead of pushing.  Branch order
follows the source `match`: identifier, number, `+ - / ^`, `*`/`**`,
group, terminator, whitespace, unknown character.  A group recursively
lexes with terminator `)`; reaching the end of input simply returns the
lexemes read so far (no error), exactly as the source `while let` loop
ends.  `fuel` bounds recursion depth (see module comment). -/
def lex : Nat → List Char → Char → Except Error (List Lexeme × List Char)
  | 0, _, _ => .error .Unrecognized
  | fuel + 1, input, term =>
    match input with
    | [] => .ok ([], [])
    | c :: rest =>
      if c.isAlpha then
        (lex fuel (rest.dropWhile Char.isAlphanum) term).map
          (fun p => (.token (c :: rest.takeWhile Char.isAlphanum) .Id :: p.1, p.2))
      else if c.isDigit ∨ c = '.' then
        (lex fuel (rest.dropWhile (fun x => x.isAlphanum || x == '.')) term).map
          (fun p =>
            (.token (c :: rest.takeWhile (fun x => x.isAlphanum || x == '.')) .Num :: p.1,
              p.2))
      else if c = '+' ∨ c = '-' ∨ c = '/' ∨ c = '^' then
        (lex fuel rest term).map (fun p => (.token [c] .Sym :: p.1, p.2))
      else if c = '*' then
        match rest with
        | '*' :: rest2 =>
          (lex fuel rest2 term).map (fun p => (.token ['*', '*'] .Sym :: p.1, p.2))
        | _ => (lex fuel rest term).map (fun p => (.token ['*'] .Sym :: p.1, p.2))
      else if c = '(' then
        (lex fuel rest ')').bind fun inner =>
          (lex fuel inner.2 term).map (fun p => (.group inner.1 :: p.1, p.2))
      else if c = term then .ok ([], rest)
      else if c.isWhitespace then lex fuel rest term
      else .error .Unrecognized

/-- Model of the first loop of `fn parse_num` (src/expr.rs lines 204-215):
reads decimal digits into the accumulator, stops after a `.` returning the
rest of the characters, and fails with `Invalid` on any other non-digit. -/
def parse_num_int : List Char → ℚ → Except Error (ℚ × List Char)
  | [], acc => .ok (acc, [])
  | c :: rest, acc =>
    if '0' ≤ c ∧ c ≤ '9' then
      parse_num_int rest (acc * 10 + (c.toNat - '0'.toNat : ℕ))
    else if c = '.' then .ok (acc, rest)
    else .error .Invalid

/-- Model of the second loop of `fn parse_num` (src/expr.rs lines 216-227):
accumulates fractional digits scaled by a multiplier that is divided by 10
at each step, stops (returning the accumulator and silently discarding the
remainder) at a second `.`, and fails with `Invalid` on any other
non-digit. -/
def parse_num_frac : List Char → ℚ → ℚ → Except Error ℚ
  | [], acc, _ => .ok acc
  | c :: rest, acc, mult =>
    if '0' ≤ c ∧ c ≤ '9' then
      parse_num_frac rest (acc + (c.toNat - '0'.toNat : ℕ) * mult) (mult / 10)
    else if c = '.' then .ok acc
    else .error .Invalid

/-- Model of `fn parse_num` (src/expr.rs lines 203-229): integer part,
then fractional part starting with multiplier `0.1`, summed.  The `f64`
accumulation is modelled as exact rational arithmetic (see module
comment). -/
def parse_num (text : List Char) : Except Error ℚ :=
  (parse_num_int text 0).bind fun p =>
    (parse_num_frac p.2 0 (1 / 10)).map fun f => p.1 + f

/-- Model of `enum BinOp` (src/expr.rs lines 121-127). -/
inductive BinOp
  | Add
  | Sub
  | Mul
  | Div
  | Pow
deriving DecidableEq, Repr

/-- Names of the built-in unary functions.  The source stores each one as
a boxed closure in `UnOp::Fn`; the model stores the name and dispatches
through `applyFn`, one arm per closure of the source's identifier table
(aliases like `asin`/`arcsin` share one closure and hence one name). -/
inductive FnName
  | sin | cos | tan | sec | csc | cot
  | asin | acos | atan | asec | acsc | acot
  | loge | log10 | log2 | sqrt | cbrt | abs
deriving DecidableEq, Repr

/-- Model of `enum UnOp` (src/expr.rs lines 129-133) with the closure
replaced by its `FnName`. -/
inductive UnOp
  | Fn (name : FnName)
  | Pos
  | Neg
deriving DecidableEq, Repr

/-- Model of `enum Expression` (src/expr.rs lines 151-162).  `Num` holds
the exact rational modelling the `f64` payload. -/
inductive Expression
  | BinOp (lhs : Expression) (op : BinOp) (rhs : Expression)
  | UnOp (op : UnOp) (inner : Expression)
  | Num (x : ℚ)
deriving DecidableEq, Repr

/-- The transcendental `f64` functions the source uses, left abstract
because they have no exact rational embedding (module comment).  `rpow`
is the non-integer-exponent case of `f64::powf` on a positive finite
base. -/
structure FloatFns where
  sin : FVal → FVal
  cos : FVal → FVal
  tan : FVal → FVal
  asin : FVal → FVal
  acos : FVal → FVal
  atan : FVal → FVal
  ln : FVal → FVal
  log10 : FVal → FVal
  log2 : FVal → FVal
  sqrt : FVal → FVal
  cbrt : FVal → FVal
  rpow : ℚ → ℚ → FVal

/-- The closures bound in the identifier table of `fn parse_atom`
(src/expr.rs lines 248-265), one arm per closure, in source order.
Every arm wraps its result in `Ok`, exactly as every closure in the
source reads `|x| Ok(...)`.  The reciprocal and inverse-reciprocal
functions are built from `fdiv` exactly as the source builds them from
`1.0 / ...`. -/
def applyFn (F : FloatFns) : FnName → FVal → Except Error FVal
  | .sin => fun x => .ok (F.sin x)
  | .cos => fun x => .ok (F.cos x)
  | .tan => fun x => .ok (F.tan x)
  | .sec => fun x => .ok (fdiv (.fin 1) (F.cos x))
  | .csc => fun x => .ok (fdiv (.fin 1) (F.sin x))
  | .cot => fun x => .ok (fdiv (.fin 1) (F.tan x))
  | .asin => fun x => .ok (F.asin x)
  | .acos => fun x => .ok (F.acos x)
  | .atan => fun x => .ok (F.atan x)
  | .asec => fun x => .ok (F.acos (fdiv (.fin 1) x))
  | .acsc => fun x => .ok (F.asin (fdiv (.fin 1) x))
  | .acot => fun x => .ok (F.atan (fdiv (.fin 1) x))
  | .loge => fun x => .ok (F.ln x)
  | .log10 => fun x => .ok (F.log10 x)
  | .log2 => fun x => .ok (F.log2 x)
  | .sqrt => fun x => .ok (F.sqrt x)
  | .cbrt => fun x => .ok (F.cbrt x)
  | .abs => fun x => .ok (fabs x)

/-- The per-operator arithmetic of the `BinOp` arm of `Expression::eval`
(src/expr.rs lines 176-182): `+ - * /` and `powf`. -/
def binApply (F : FloatFns) : BinOp → FVal → FVal → FVal
  | .Add => fadd
  | .Sub => fsub
  | .Mul => fmul
  | .Div => fdiv
  | .Pow => fun a b => fpow F.rpow a b

/-- Model of `Expression::eval` (src/expr.rs lines 174-191): post-order
walk; each branch evaluates the children with `?`-propagation and applies
the operator (via `binApply`), a unary sign, or the stored function. -/
def Expression.eval (F : FloatFns) : Expression → Except Error FVal
  | .BinOp lhs op rhs =>
    (Expression.eval F lhs).bind fun a =>
      (Expression.eval F rhs).bind fun b => .ok (binApply F op a b)
  | .UnOp op inner =>
    match op with
    | .Pos => Expression.eval F inner
    | .Neg => (Expression.eval F inner).map fneg
    | .Fn n => (Expression.eval F inner).bind (applyFn F n)
  | .Num x => .ok (.fin x)

/-- Model of `fn bin_bp` (src/expr.rs lines 193-201), including the dead
`" "` arm.  The source panics (`unreachable!`) on any other text; the
lexer only ever produces the six operator spellings, so the model returns
the junk value `(0, 0)` there. -/
def bin_bp (op : List Char) : Nat × Nat :=
  if op = ['+'] ∨ op = ['-'] then (1, 2)
  else if op = [' '] then (3, 4)
  else if op = ['*'] ∨ op = ['/'] then (5, 6)
  else if op = ['^'] ∨ op = ['*', '*'] then (8, 7)
  else (0, 0)

/-- The textual-to-enum operator mapping inside the fold of `fn parse_bp`
(src/expr.rs lines 313-320).  The source panics (`unreachable!`) on any
other text; the model returns the junk value `Mul` there (the lexer only
ever produces the six spellings). -/
def binOpOfSym (op : List Char) : BinOp :=
  if op = ['+'] then .Add
  else if op = ['-'] then .Sub
  else if op = ['*'] then .Mul
  else if op = ['/'] then .Div
  else if op = ['^'] ∨ op = ['*', '*'] then .Pow
  else .Mul

mutual

/-- Model of `fn parse_arg` (src/expr.rs lines 231-236): a group argument
is parsed as an atom; anything else (including an empty stream) is parsed
at minimum binding power 4. -/
def parse_arg (fuel : Nat) (iter : List Lexeme) : Except Error (Expression × List Lexeme) :=
  match fuel with
  | 0 => .error .Unrecognized
  | fuel + 1 =>
    match iter with
    | .group inner :: rest => parse_atom fuel (.group inner :: rest)
    | _ => parse_bp fuel iter 4

/-- Model of `fn parse_atom` (src/expr.rs lines 238-292), arm for arm in
source order: number token, identifier token dispatched over the fixed
table (with the exact `f64` values of the constants `e`, `pi`, `tau` as
dyadic rationals), group (inner sequence parsed at binding power 0, its
leftover discarded exactly as the source drops the fresh inner iterator),
unary `+` and `-` parsing at binding power 7, the binary-only symbols
`* / ^` failing with `Invalid`, and everything else (including `**` and
end of input) failing with `Unrecognized`. -/
def parse_atom (fuel : Nat) (iter : List Lexeme) : Except Error (Expression × List Lexeme) :=
  match fuel with
  | 0 => .error .Unrecognized
  | fuel + 1 =>
    match iter with
    | .token text .Num :: rest => (parse_num text).map fun q => (Expression.Num q, rest)
    | .token text .Id :: rest =>
      if text = ['s', 'i', 'n'] then
        (parse_arg fuel rest).map fun p => (Expression.UnOp (.Fn .sin) p.1, p.2)
      else if text = ['c', 'o', 's'] then
        (parse_arg fuel rest).map fun p => (Expression.UnOp (.Fn .cos) p.1, p.2)
      else if text = ['t', 'a', 'n'] then
        (parse_arg fuel rest).map fun p => (Expression.UnOp (.Fn .tan) p.1, p.2)
      else if text = ['s', 'e', 'c'] then
        (parse_arg fuel rest).map fun p => (Expression.UnOp (.Fn .sec) p.1, p.2)
      else if text = ['c', 's', 'c'] then
        (parse_arg fuel rest).map fun p => (Expression.UnOp (.Fn .csc) p.1, p.2)
      else if text = ['c', 'o', 't'] then
        (parse_arg fuel rest).map fun p => (Expression.UnOp (.Fn .cot) p.1, p.2)
      else if text = ['a', 's', 'i', 'n'] ∨ text = ['a', 'r', 'c', 's', 'i', 'n'] then
        (parse_arg fuel rest).map fun p => (Expression.UnOp (.Fn .asin) p.1, p.2)
      else if text = ['a', 'c', 'o', 's'] ∨ text = ['a', 'r', 'c', 'c', 'o', 's'] then
        (parse_arg fuel rest).map fun p => (Expression.UnOp (.Fn .acos) p.1, p.2)
      else if text = ['a', 't', 'a', 'n'] ∨ text = ['a', 'r', 'c', 't', 'a', 'n'] then
        (parse_arg fuel rest).map fun p => (Expression.UnOp (.Fn .atan) p.1, p.2)
      else if text = ['a', 's', 'e', 'c'] ∨ text = ['a', 'r', 'c', 's', 'e', 'c'] then
        (parse_arg fuel rest).map fun p => (Expression.UnOp (.Fn .asec) p.1, p.2)
      else if text = ['a', 'c', 's', 'c'] ∨ text = ['a', 'r', 'c', 'c', 's', 'c'] then
        (parse_arg fuel rest).map fun p => (Expression.UnOp (.Fn .acsc) p.1, p.2)
      else if text = ['a', 'c', 'o', 't'] ∨ text = ['a', 'r', 'c', 'c', 'o', 't'] then
        (parse_arg fuel rest).map fun p => (Expression.UnOp (.Fn .acot) p.1, p.2)
      else if text = ['l', 'o', 'g', 'e'] ∨ text = ['l', 'n'] then
        (parse_arg fuel rest).map fun p => (Expression.UnOp (.Fn .loge) p.1, p.2)
      else if text = ['l', 'o', 'g', '1', '0'] ∨ text = ['l', 'o', 'g'] then
        (parse_arg fuel rest).map fun p => (Expression.UnOp (.Fn .log10) p.1, p.2)
      else if text = ['l', 'o', 'g', '2'] ∨ text = ['l', 'b'] then
        (parse_arg fuel rest).map fun p => (Expression.UnOp (.Fn .log2) p.1, p.2)
      else if text = ['s', 'q', 'r', 't'] then
        (parse_arg fuel rest).map fun p => (Expression.UnOp (.Fn .sqrt) p.1, p.2)
      else if text = ['c', 'b', 'r', 't'] then
        (parse_arg fuel rest).map fun p => (Expression.UnOp (.Fn .cbrt) p.1, p.2)
      else if text = ['a', 'b', 's'] then
        (parse_arg fuel rest).map fun p => (Expression.UnOp (.Fn .abs) p.1, p.2)
      else if text = ['e'] then
        .ok (Expression.Num (6121026514868073 / 2251799813685248), rest)
      else if text = ['p', 'i'] then
        .ok (Expression.Num (884279719003555 / 281474976710656), rest)
      else if text = ['t', 'a', 'u'] then
        .ok (Expression.Num (884279719003555 / 140737488355328), rest)
      else .error .Unrecognized
    | .group inner :: rest => (parse_bp fuel inner 0).map fun p => (p.1, rest)
    | .token text .Sym :: rest =>
      if text = ['+'] then
        (parse_bp fuel rest 7).map fun p => (Expression.UnOp .Pos p.1, p.2)
      else if text = ['-'] then
        (parse_bp fuel rest 7).map fun p => (Expression.UnOp .Neg p.1, p.2)
      else if text = ['*'] ∨ text = ['/'] ∨ text = ['^'] then .error .Invalid
      else .error .Unrecognized
    | [] => .error .Unrecognized

/-- Model of `fn parse_bp` (src/expr.rs lines 294-335): parse a left-hand
atom, then run the binary loop (`parse_loop`). -/
def parse_bp (fuel : Nat) (iter : List Lexeme) (min_bp : Nat) :
    Except Error (Expression × List Lexeme) :=
  match fuel with
  | 0 => .error .Unrecognized
  | fuel + 1 =>
    (parse_atom fuel iter).bind fun p => parse_loop fuel p.1 p.2 min_bp

/-- The `loop` of `fn parse_bp` (src/expr.rs lines 297-332), with the
current left-hand side as an explicit argument.  End of sequence returns
the left-hand side; a symbol token whose left binding power is below
`min_bp` returns without consuming it; otherwise the symbol is consumed
and the fold continues at its right binding power; any non-symbol lexeme
is folded as an implicit multiplication through `parse_arg`, with no
binding-power comparison. -/
def parse_loop (fuel : Nat) (lhs : Expression) (iter : List Lexeme) (min_bp : Nat) :
    Except Error (Expression × List Lexeme) :=
  match fuel with
  | 0 => .error .Unrecognized
  | fuel + 1 =>
    match iter with
    | [] => .ok (lhs, [])
    | .token op .Sym :: rest =>
      if (bin_bp op).1 < min_bp then .ok (lhs, .token op .Sym :: rest)
      else
        (parse_bp fuel rest (bin_bp op).2).bind fun p =>
          parse_loop fuel (Expression.BinOp lhs (binOpOfSym op) p.1) p.2 min_bp
    | l :: rest =>
      (parse_arg fuel (l :: rest)).bind fun p =>
        parse_loop fuel (Expression.BinOp lhs BinOp.Mul p.1) p.2 min_bp

end

/-- Model of `fn parse` (src/expr.rs lines 337-340): lex the whole input
with the sentinel terminator `\0`, then parse at minimum binding power 0,
discarding the (always empty) leftover.  The fuel supplied to each stage
over-approximates its recursion depth (module comment). -/
def parse (text : List Char) : Except Error Expression :=
  (lex (text.length + 1) text (Char.ofNat 0)).bind fun lexed =>
    (parse_bp (4 * text.length + 8) lexed.1 0).map fun p => p.1

/-- Model of `pub fn evaluate` (src/expr.rs lines 346-348):
`parse(text)?.eval()`. -/
def evaluate (F : FloatFns) (text : String) : Except Error FVal :=
  (parse text.data).bind (Expression.eval F)

/-! Helper lemmas shared between claims. -/

/-- Every closure bound in the identifier table returns `Ok` on every
input: each arm of `applyFn` is literally an `Ok`-wrapped value. -/
theorem applyFn_ok (F : FloatFns) (n : FnName) (x : FVal) :
    ∃ v, applyFn F n x = .ok v := by
  cases n <;> exact ⟨_, rfl⟩

/-- Evaluation is total: every expression evaluates to `Ok`, because the
arithmetic on `FVal` is total and every stored function returns `Ok`. -/
theorem eval_ok (F : FloatFns) : ∀ e : Expression, ∃ v, Expression.eval F e = .ok v := by
  intro e
  induction e with
  | BinOp l op r ihl ihr =>
    obtain ⟨a, ha⟩ := ihl
    obtain ⟨b, hb⟩ := ihr
    exact ⟨binApply F op a b, by simp [Expression.eval, ha, hb, Except.bind]⟩
  | UnOp op inner ih =>
    obtain ⟨a, ha⟩ := ih
    cases op with
    | Pos => exact ⟨a, by simpa [Expression.eval] using ha⟩
    | Neg => exact ⟨fneg a, by simp [Expression.eval, ha, Except.map]⟩
    | Fn n =>
      obtain ⟨v, hv⟩ := applyFn_ok F n a
      exact ⟨v, by simp [Expression.eval, ha, hv, Except.bind]⟩
  | Num x => exact ⟨.fin x, rfl⟩

/-! Claim theorems. -/

/-- C1: in the binary loop of `parse_bp`, whenever the next lexeme is not
a symbol token (a group, a number token, or an identifier token), the
current left-hand side is folded with a freshly `parse_arg`-parsed
argument into `BinOp Mul` for every `min_bp`, with no comparison against
`min_bp`; consequently in `2^3 4` the adjacency `3 4` is absorbed into
the right operand of `^`, giving `2^(3*4) = 4096`. -/
theorem implicit_mul_ignores_min_bp :
    (∀ fuel lhs min_bp inner rest,
      parse_loop (fuel + 1) lhs (Lexeme.group inner :: rest) min_bp =
        (parse_arg fuel (Lexeme.group inner :: rest)).bind fun p =>
          parse_loop fuel (Expression.BinOp lhs BinOp.Mul p.1) p.2 min_bp) ∧
    (∀ fuel lhs min_bp text rest,
      parse_loop (fuel + 1) lhs (Lexeme.token text TokenType.Num :: rest) min_bp =
        (parse_arg fuel (Lexeme.token text TokenType.Num :: rest)).bind fun p =>
          parse_loop fuel (Expression.BinOp lhs BinOp.Mul p.1) p.2 min_bp) ∧
    (∀ fuel lhs min_bp text rest,
      parse_loop (fuel + 1) lhs (Lexeme.token text TokenType.Id :: rest) min_bp =
        (parse_arg fuel (Lexeme.token text TokenType.Id :: rest)).bind fun p =>
          parse_loop fuel (Expression.BinOp lhs BinOp.Mul p.1) p.2 min_bp) ∧
    parse (("2^3 4").data) =
      .ok (Expression.BinOp (.Num 2) .Pow (Expression.BinOp (.Num 3) .Mul (.Num 4))) ∧
    ∀ F : FloatFns, evaluate F ("2^3 4") = .ok (.fin 4096) := by
  refine ⟨fun _ _ _ _ _ => rfl, fun _ _ _ _ _ => rfl, fun _ _ _ _ _ => rfl, ?_, ?_⟩
  · simp +decide [parse, lex, parse_bp, parse_atom, parse_arg, parse_loop,
      parse_num, parse_num_int, parse_num_frac, bin_bp, binOpOfSym,
      Except.bind, Except.map, List.dropWhile, List.takeWhile]
  · intro F
    simp +decide [evaluate, parse, lex, parse_bp, parse_atom, parse_arg, parse_loop,
      parse_num, parse_num_int, parse_num_frac, bin_bp, binOpOfSym,
      Expression.eval, applyFn, binApply, fadd, fsub, fmul, fdiv, fneg, fpow,
      Except.bind, Except.map, List.dropWhile, List.takeWhile]
    all_goals norm_num [Rat.den_ofNat, Rat.num_ofNat]

/-- C2: a bare (non-group) function argument — any token head, or an
empty stream — is parsed at minimum binding power 4, while a group head
is parsed as an atom consuming the whole group; hence `sin 30+10`
evaluates to `sin(30) + 10`, `sin 2*3` evaluates to `sin(2*3) = sin(6)`,
and `sin(30+10)` evaluates to `sin(40)`. -/
theorem fn_arg_binding_power :
    (∀ fuel text ty rest,
      parse_arg (fuel + 1) (Lexeme.token text ty :: rest) =
        parse_bp fuel (Lexeme.token text ty :: rest) 4) ∧
    (∀ fuel, parse_arg (fuel + 1) [] = parse_bp fuel [] 4) ∧
    (∀ fuel inner rest,
      parse_arg (fuel + 1) (Lexeme.group inner :: rest) =
        parse_atom fuel (Lexeme.group inner :: rest)) ∧
    (∀ F : FloatFns,
      evaluate F ("sin 30+10") = .ok (fadd (F.sin (.fin 30)) (.fin 10))) ∧
    (∀ F : FloatFns, evaluate F ("sin 2*3") = .ok (F.sin (.fin 6))) ∧
    (∀ F : FloatFns, evaluate F ("sin(30+10)") = .ok (F.sin (.fin 40))) := by
  refine ⟨fun _ _ _ _ => rfl, fun _ => rfl, fun _ _ _ => rfl, ?_, ?_, ?_⟩ <;>
  · intro F
    simp +decide [evaluate, parse, lex, parse_bp, parse_atom, parse_arg, parse_loop,
      parse_num, parse_num_int, parse_num_frac, bin_bp, binOpOfSym,
      Expression.eval, applyFn, binApply, fadd, fsub, fmul, fdiv, fneg, fpow,
      Except.bind, Except.map, List.dropWhile, List.takeWhile]
    all_goals norm_num [Rat.den_ofNat, Rat.num_ofNat]

/-- C3: the binding powers of `^` and `**` are `(8, 7)` with the right
one below the left one, making the operator right-associative: `2^3^2`
parses as `2^(3^2)` and evaluates to 512, not `(2^3)^2 = 64`. -/
theorem pow_right_assoc :
    bin_bp ['^'] = (8, 7) ∧ bin_bp ['*', '*'] = (8, 7) ∧
    parse (("2^3^2").data) =
      .ok (Expression.BinOp (.Num 2) .Pow (Expression.BinOp (.Num 3) .Pow (.Num 2))) ∧
    ∀ F : FloatFns, evaluate F ("2^3^2") = .ok (.fin 512) := by
  refine ⟨rfl, rfl, ?_, ?_⟩
  · simp +decide [parse, lex, parse_bp, parse_atom, parse_arg, parse_loop,
      parse_num, parse_num_int, parse_num_frac, bin_bp, binOpOfSym,
      Except.bind, Except.map, List.dropWhile, List.takeWhile]
  · intro F
    simp +decide [evaluate, parse, lex, parse_bp, parse_atom, parse_arg, parse_loop,
      parse_num, parse_num_int, parse_num_frac, bin_bp, binOpOfSym,
      Expression.eval, applyFn, binApply, fadd, fsub, fmul, fdiv, fneg, fpow,
      Except.bind, Except.map, List.dropWhile, List.takeWhile]
    all_goals norm_num [Rat.den_ofNat, Rat.num_ofNat]

/-- C4: unary minus in atom position parses its operand at minimum
binding power 7, below the left binding power 8 of `^`, so `-2^2` parses
as `-(2^2)` and evaluates to `-4`.  -/
theorem neg_binds_looser_than_pow :
    (∀ fuel rest,
      parse_atom (fuel + 1) (Lexeme.token ['-'] TokenType.Sym :: rest) =
        (parse_bp fuel rest 7).map fun p => (Expression.UnOp .Neg p.1, p.2)) ∧
    parse (("-2^2").data) =
      .ok (Expression.UnOp .Neg (Expression.BinOp (.Num 2) .Pow (.Num 2))) ∧
    ∀ F : FloatFns, evaluate F ("-2^2") = .ok (.fin (-4)) := by
  refine ⟨fun _ _ => rfl, ?_, ?_⟩
  · simp +decide [parse, lex, parse_bp, parse_atom, parse_arg, parse_loop,
      parse_num, parse_num_int, parse_num_frac, bin_bp, binOpOfSym,
      Except.bind, Except.map, List.dropWhile, List.takeWhile]
  · intro F
    simp +decide [evaluate, parse, lex, parse_bp, parse_atom, parse_arg, parse_loop,
      parse_num, parse_num_int, parse_num_frac, bin_bp, binOpOfSym,
      Expression.eval, applyFn, binApply, fadd, fsub, fmul, fdiv, fneg, fpow,
      Except.bind, Except.map, List.dropWhile, List.takeWhile]
    all_goals norm_num [Rat.den_ofNat, Rat.num_ofNat]

/-- C5: two adjacent atoms with no operator between them multiply:
whitespace-separated numbers (`2 3 = 6`) and a number immediately
followed by a parenthesized group (`2(3+4) = 14`). -/
theorem implicit_mul_adjacent_atoms :
    (∀ F : FloatFns, evaluate F ("2 3") = .ok (.fin 6)) ∧
    (∀ F : FloatFns, evaluate F ("2(3+4)") = .ok (.fin 14)) := by
  constructor <;>
  · intro F
    simp +decide [evaluate, parse, lex, parse_bp, parse_atom, parse_arg, parse_loop,
      parse_num, parse_num_int, parse_num_frac, bin_bp, binOpOfSym,
      Expression.eval, applyFn, binApply, fadd, fsub, fmul, fdiv, fneg, fpow,
      Except.bind, Except.map, List.dropWhile, List.takeWhile]
    all_goals norm_num [Rat.den_ofNat, Rat.num_ofNat]

/-- C6: atom-position failures follow the two-kind taxonomy: an unknown
identifier (such as `foo`) fails with `Unrecognized`, while each of the
binary-only symbols `*`, `/`, `^` in atom position fails with `Invalid`;
concretely `foo(1)` gives `Unrecognized` and `*3` gives `Invalid`. -/
theorem atom_error_taxonomy :
    (∀ fuel rest,
      parse_atom (fuel + 1) (Lexeme.token ['f', 'o', 'o'] TokenType.Id :: rest) =
        .error .Unrecognized) ∧
    (∀ fuel rest,
      parse_atom (fuel + 1) (Lexeme.token ['*'] TokenType.Sym :: rest) = .error .Invalid) ∧
    (∀ fuel rest,
      parse_atom (fuel + 1) (Lexeme.token ['/'] TokenType.Sym :: rest) = .error .Invalid) ∧
    (∀ fuel rest,
      parse_atom (fuel + 1) (Lexeme.token ['^'] TokenType.Sym :: rest) = .error .Invalid) ∧
    (∀ F : FloatFns, evaluate F ("foo(1)") = .error .Unrecognized) ∧
    (∀ F : FloatFns, evaluate F ("*3") = .error .Invalid) := by
  refine ⟨fun _ _ => by rfl, fun _ _ => by rfl, fun _ _ => by rfl, fun _ _ => by rfl, ?_, ?_⟩ <;>
  · intro F
    simp +decide [evaluate, parse, lex, parse_bp, parse_atom, parse_arg, parse_loop,
      parse_num, parse_num_int, parse_num_frac, bin_bp, binOpOfSym,
      Expression.eval, applyFn, binApply, fadd, fsub, fmul, fdiv, fneg, fpow,
      Except.bind, Except.map, List.dropWhile, List.takeWhile]

/-- C7: division by zero is not a raised error: `1/0` evaluates to
`Ok(Infinity)` by the modelled IEEE division, and evaluating a `BinOp`
never fails on its own — both children always evaluate to `Ok` and the
node then applies the total arithmetic `binApply`, so the only conceivable
failure path is propagation. -/
theorem div_zero_not_error :
    (∀ F : FloatFns, evaluate F ("1/0") = .ok .inf) ∧
    (∀ (F : FloatFns) (l : Expression) (op : BinOp) (r : Expression),
      ∃ a b, Expression.eval F l = .ok a ∧ Expression.eval F r = .ok b ∧
        Expression.eval F (Expression.BinOp l op r) = .ok (binApply F op a b)) := by
  constructor
  · intro F
    simp +decide [evaluate, parse, lex, parse_bp, parse_atom, parse_arg, parse_loop,
      parse_num, parse_num_int, parse_num_frac, bin_bp, binOpOfSym,
      Expression.eval, applyFn, binApply, fadd, fsub, fmul, fdiv, fneg, fpow,
      Except.bind, Except.map, List.dropWhile, List.takeWhile]
  · intro F l op r
    obtain ⟨a, ha⟩ := eval_ok F l
    obtain ⟨b, hb⟩ := eval_ok F r
    exact ⟨a, b, ha, hb, by simp [Expression.eval, ha, hb, Except.bind]⟩

/-- C8 counterexample: the fractional loop of `parse_num` does not stop
with `Ok` at every non-digit — at `x` in `1.2x` it raises `Invalid`, so
no `Ok` value is returned at all, contradicting the claim that the value
accumulated so far (1.2) is returned. -/
theorem parse_num_frac_nondigit_cex :
    parse_num (("1.2x").data) = .error .Invalid ∧
    ∀ q : ℚ, parse_num (("1.2x").data) ≠ .ok q := by
  refine ⟨by rfl, ?_⟩
  intro q h
  rw [show parse_num (("1.2x").data) = .error .Invalid from rfl] at h
  exact Except.noConfusion h

/-- C8 (amended): the fractional loop of `parse_num` stops, returning
`Ok` of the value accumulated so far and silently discarding the
remainder, exactly when the non-digit met is a second `.` (e.g.
`parse_num "1.2.3" = Ok(1.2)`); any other non-digit in the fractional
loop fails with `Invalid` (e.g. `1.2x`), as does a non-digit before the
first `.` (e.g. `1a2`). -/
theorem parse_num_frac_stop :
    (∀ rest acc mult, parse_num_frac ('.' :: rest) acc mult = .ok acc) ∧
    parse_num (("1.2.3").data) = .ok (6 / 5) ∧
    parse_num (("1.2x").data) = .error .Invalid ∧
    parse_num (("1a2").data) = .error .Invalid := by
  refine ⟨fun _ _ _ => rfl, ?_, by rfl, by rfl⟩
  simp +decide [parse_num, parse_num_int, parse_num_frac, Except.bind, Except.map]
  norm_num

/-- C9: running out of input is never a lexing error: `lex` on an empty
stream returns `Ok` of the lexemes read so far regardless of the pending
terminator, so an unterminated group such as in `(1+2` lexes to a
complete `Group` lexeme and the whole expression evaluates to `Ok(3)`. -/
theorem unterminated_group_ok :
    (∀ fuel term, lex (fuel + 1) [] term = .ok ([], [])) ∧
    lex 6 (("(1+2").data) (Char.ofNat 0) =
      .ok ([Lexeme.group
        [Lexeme.token ['1'] TokenType.Num, Lexeme.token ['+'] TokenType.Sym,
          Lexeme.token ['2'] TokenType.Num]], []) ∧
    ∀ F : FloatFns, evaluate F ("(1+2") = .ok (.fin 3) := by
  refine ⟨fun _ _ => rfl, by rfl, ?_⟩
  intro F
  simp +decide [evaluate, parse, lex, parse_bp, parse_atom, parse_arg, parse_loop,
    parse_num, parse_num_int, parse_num_frac, bin_bp, binOpOfSym,
    Expression.eval, applyFn, binApply, fadd, fsub, fmul, fdiv, fneg, fpow,
    Except.bind, Except.map, List.dropWhile, List.takeWhile]
  all_goals norm_num [Rat.den_ofNat, Rat.num_ofNat]

/-- C10: every closure in the identifier dispatch table returns `Ok` on
every input, evaluation of every expression returns `Ok`, and therefore
`evaluate` fails exactly when lexing or parsing fails — never during
evaluation. -/
theorem eval_never_fails :
    (∀ (F : FloatFns) (n : FnName) (x : FVal), ∃ v, applyFn F n x = .ok v) ∧
    (∀ (F : FloatFns) (e : Expression), ∃ v, Expression.eval F e = .ok v) ∧
    (∀ (F : FloatFns) (s : String) (err : Error),
      evaluate F s = .error err ↔ parse s.data = .error err) := by
  refine ⟨applyFn_ok, eval_ok, ?_⟩
  intro F s err
  unfold evaluate
  cases h : parse s.data with
  | error e => simp [Except.bind]
  | ok ast =>
    obtain ⟨v, hv⟩ := eval_ok F ast
    simp [Except.bind, hv]

end MathyNotes
